import Mathlib

/-!
Verification of the speech cognitive-analysis pipeline.

Shallow embedding of the JavaScript sources:
  - src/src/utils/featureUtils.js (linguistic feature extractors, risk scoring,
    audio quality scoring),
  - src/unnamed/part_001 (stage functions and processAudioPipeline).

Modelling conventions:
  - JS strings are `List Char`; a nullable string parameter is `Option (List Char)`
    (`none` is JS null/undefined); `!s` is `none` or the empty list.
  - JS numbers are `ℚ` (the source only performs exact decimal arithmetic in the
    parts under verification).
  - `Math.random()` draws are explicit `ℚ` parameters, one per call site.
  - JS objects used as string-keyed maps are association lists `List (String × ℚ)`
    with the object's own insertion order; `obj[k]` is `List.lookup`.
  - The regex character class `\s` is modelled on the characters this code base
    can meet in its lexicons and tests (ASCII whitespace and NBSP); `\w` is
    `[A-Za-z0-9_]` exactly as in JS; `toLowerCase` is modelled on ASCII, which
    covers every lexicon word and test string involved.
  - Fallible stage calls return `JsResult`, the `{success, data|error}` shape of
    the source.
-/

/-! ## Character-level model of the JS string primitives -/

/-- The regex class `\s` (whitespace), restricted as documented above:
tab, LF, VT, FF, CR, space, NBSP. -/
def jsWs (c : Char) : Bool :=
  decide (c.toNat ∈ ([9, 10, 11, 12, 13, 32, 160] : List Nat))

/-- `String.prototype.toLowerCase`, on the ASCII range (A-Z ↦ a-z). -/
def jsToLower (c : Char) : Char :=
  if 65 ≤ c.toNat ∧ c.toNat ≤ 90 then Char.ofNat (c.toNat + 32) else c

/-- The regex class `\w`: `[A-Za-z0-9_]`. -/
def isWordChar (c : Char) : Bool :=
  decide (65 ≤ c.toNat ∧ c.toNat ≤ 90) || decide (97 ≤ c.toNat ∧ c.toNat ≤ 122) ||
  decide (48 ≤ c.toNat ∧ c.toNat ≤ 57) || decide (c.toNat = 95)

/-- The sentence-terminator class `[.!?]` of `detectIncompleteSentences`. -/
def sentencePunct (c : Char) : Bool :=
  c == '.' || c == '!' || c == '?'

/-- Worker for `String.prototype.split` against a regex `p+` (one or more
characters of class `p`): a maximal run of `p`-characters is one separator, an
empty piece is produced at either end when the string starts or ends with a
separator.  `inRun` records whether the previous character was part of a
separator run; `cur` is the current piece, reversed. -/
def jsSplitRunsGo (p : Char → Bool) : Bool → List Char → List Char → List (List Char)
  | _, cur, [] => [cur.reverse]
  | inRun, cur, c :: rest =>
    if p c then
      if inRun then jsSplitRunsGo p true cur rest
      else cur.reverse :: jsSplitRunsGo p true [] rest
    else jsSplitRunsGo p false (c :: cur) rest

/-- `s.split(regex)` where the regex is `p+` for a character class `p`. -/
def jsSplitRuns (p : Char → Bool) (l : List Char) : List (List Char) :=
  jsSplitRunsGo p false [] l

/-- `s.split(/\s+/)`. -/
def jsSplitWs (l : List Char) : List (List Char) :=
  jsSplitRuns jsWs l

/-- `String.prototype.trim`. -/
def jsTrim (l : List Char) : List Char :=
  ((l.dropWhile (fun c => jsWs c)).reverse.dropWhile (fun c => jsWs c)).reverse

/-- The non-empty whitespace-delimited tokens of a string:
`s.split(/\s+/).filter(word => word.length > 0)` from `calculateSpeechRate`. -/
def wordsOf (l : List Char) : List (List Char) :=
  (jsSplitWs l).filter (fun w => !w.isEmpty)

/-! ## Linguistic Feature Extractor (src/src/utils/featureUtils.js) -/

/-- `calculateSpeechRate(transcription, durationInSeconds)`:
`if (!transcription || durationInSeconds <= 0) return 0;` then
word count divided by the duration in minutes. -/
def calculateSpeechRate (transcription : Option (List Char)) (durationInSeconds : ℚ) : ℚ :=
  match transcription with
  | none => 0
  | some l =>
    if l = [] ∨ durationInSeconds ≤ 0 then 0
    else ((wordsOf l).length : ℚ) / (durationInSeconds / 60)

/-- The hesitation lexicon `['uh', 'um', 'er', 'ah', 'hmm', 'ehm']`. -/
def hesitationWords : List (List Char) :=
  ["uh".toList, "um".toList, "er".toList, "ah".toList, "hmm".toList, "ehm".toList]

/-- `countHesitations(transcription)`: lowercase, split on `/\s+/`, count the
tokens that are in the hesitation lexicon. -/
def countHesitations (transcription : Option (List Char)) : Nat :=
  match transcription with
  | none => 0
  | some l =>
    if l = [] then 0
    else ((jsSplitWs (l.map jsToLower)).filter (fun w => hesitationWords.contains w)).length

/-- The pause characters of the regex `/\.{2,}|,{2,}|\.\.\.|--+/`. -/
def pauseChar (c : Char) : Bool :=
  c == '.' || c == ',' || c == '-'

/-- Count of non-overlapping matches of `/\.{2,}|,{2,}|\.\.\.|--+/g`: a maximal
run of two or more identical pause characters is one match (the `\.\.\.`
alternative is subsumed by the greedy `\.{2,}`). -/
def countPausesGo : List Char → Nat
  | [] => 0
  | [_] => 0
  | a :: b :: rest =>
    if pauseChar a && a == b then
      1 + countPausesGo (List.dropWhile (fun x => x == a) (b :: rest))
    else
      countPausesGo (b :: rest)
termination_by l => l.length
decreasing_by
  · simp only [List.length_cons]
    have h := (List.dropWhile_suffix (l := b :: rest) (fun x => x == a)).sublist.length_le
    simp only [List.length_cons] at h
    omega
  · simp only [List.length_cons]
    omega

/-- `countPauses(transcription)`. -/
def countPauses (transcription : Option (List Char)) : Nat :=
  match transcription with
  | none => 0
  | some l => if l = [] then 0 else countPausesGo l

/-- The vague-word lexicon. -/
def vagueWords : List (List Char) :=
  ["thing".toList, "stuff".toList, "something".toList, "somewhere".toList,
   "somehow".toList, "whatever".toList, "whatsoever".toList]

/-- `countVagueWords(transcription)`: lowercase, split on `/\s+/`, count the
tokens that are in the vague-word lexicon. -/
def countVagueWords (transcription : Option (List Char)) : Nat :=
  match transcription with
  | none => 0
  | some l =>
    if l = [] then 0
    else ((jsSplitWs (l.map jsToLower)).filter (fun w => vagueWords.contains w)).length

/-- The dangling conjunctions of `/\b(and|but|or|so|because|if|when)\s*$/i`. -/
def conjunctionWords : List (List Char) :=
  ["and".toList, "but".toList, "or".toList, "so".toList,
   "because".toList, "if".toList, "when".toList]

/-- `w` is a suffix of `l` preceded by a word boundary (`\bw$`): `w` occurs at
the end of `l` and the character just before the occurrence, if any, is not a
word character. -/
def suffixWithBoundary (w l : List Char) : Bool :=
  decide (w.length ≤ l.length) && (List.drop (l.length - w.length) l == w) &&
  (decide (l.length = w.length) || !isWordChar (l.getD (l.length - w.length - 1) ' '))

/-- `/\b(and|but|or|so|because|if|when)\s*$/i.test(sentence.trim())`: after the
trim there is no trailing whitespace left, so the test holds exactly when the
lowercased sentence ends in one of the conjunctions at a word boundary. -/
def endsWithDanglingConj (l : List Char) : Bool :=
  conjunctionWords.any (fun w => suffixWithBoundary w (l.map jsToLower))

/-- The sentence segments of `detectIncompleteSentences`:
`transcription.split(/[.!?]+/).filter(s => s.trim().length > 0)`. -/
def sentenceSegments (l : List Char) : List (List Char) :=
  (jsSplitRuns sentencePunct l).filter (fun s => !(jsTrim s).isEmpty)

/-- The per-sentence test of `detectIncompleteSentences`:
`sentence.split(/\s+/).length < 3 || /\b(and|...|when)\s*$/i.test(sentence.trim())`.
Note the split-element count is NOT filtered for empty pieces: a sentence with
leading or trailing whitespace contributes an empty piece at that end. -/
def isIncompleteSentence (s : List Char) : Bool :=
  decide ((jsSplitWs s).length < 3) || endsWithDanglingConj (jsTrim s)

/-- `detectIncompleteSentences(transcription)`: the for-loop over the sentence
segments, incrementing a counter on each incomplete sentence. -/
def detectIncompleteSentences (transcription : Option (List Char)) : Nat :=
  match transcription with
  | none => 0
  | some l =>
    if l = [] then 0
    else (sentenceSegments l).foldl (fun acc s => if isIncompleteSentence s then acc + 1 else acc) 0

/-- The per-sentence test exactly as claim C7 words it (refinement reference):
fewer than 3 non-empty whitespace-delimited tokens, or a dangling conjunction
at the end. -/
def isIncompleteSentenceClaim (s : List Char) : Bool :=
  decide ((wordsOf s).length < 3) || endsWithDanglingConj (jsTrim s)

/-- `detectIncompleteSentences` exactly as claim C7 words it. -/
def incompleteSentencesClaim (transcription : Option (List Char)) : Nat :=
  match transcription with
  | none => 0
  | some l => (sentenceSegments l).countP isIncompleteSentenceClaim

/-- The apostrophe character, used inside the lost-word phrases. -/
def apos : Char := Char.ofNat 39

/-- The first lost-words pattern
`/\b(that thing|you know|like|what's it called|what do you call it)\b/gi`,
as its list of (lowercased) alternatives in source order. -/
def lostPhrases1 : List (List Char) :=
  ["that thing".toList, "you know".toList, "like".toList,
   "what".toList ++ apos :: "s it called".toList,
   "what do you call it".toList]

/-- The second lost-words pattern `/\bI (can't remember|forgot|don't recall)\b/gi`,
as its list of (lowercased) alternatives in source order. -/
def lostPhrases2 : List (List Char) :=
  ["i can".toList ++ apos :: "t remember".toList,
   "i forgot".toList,
   "i don".toList ++ apos :: "t recall".toList]

/-- The trailing `\b` of the lost-words patterns: the character following the
occurrence, if any, is not a word character (every alternative ends in a word
character). -/
def boundaryAfter (w l : List Char) : Bool :=
  match List.drop w.length l with
  | [] => true
  | d :: _ => !isWordChar d

/-- Attempt a match of one of the alternatives at the current position, trying
them in pattern order (JS alternation order).  `prevW` says whether the
preceding character is a word character; every alternative begins with a word
character, so the leading `\b` fails when `prevW` holds. -/
def phraseMatchLen (phrases : List (List Char)) (prevW : Bool) (l : List Char) : Option Nat :=
  if prevW then none
  else phrases.findSome? (fun w =>
    if !w.isEmpty && w.isPrefixOf l && boundaryAfter w l then some w.length else none)

/-- Count the non-overlapping, leftmost matches of the alternation, scanning
left to right as the JS global regex does.  After a match the scan resumes just
past it (every alternative ends in a word character, so `prevW` becomes true). -/
def countMatchesGo (phrases : List (List Char)) : Bool → List Char → Nat
  | _, [] => 0
  | prevW, c :: rest =>
    match phraseMatchLen phrases prevW (c :: rest) with
    | some n => 1 + countMatchesGo phrases true (List.drop (n - 1) rest)
    | none => countMatchesGo phrases (isWordChar c) rest
termination_by _ l => l.length
decreasing_by
  · simp only [List.length_cons, List.length_drop]
    omega
  · simp only [List.length_cons]
    omega

/-- `countLostWords(transcription)`: the summed match counts of the two
case-insensitive patterns over the transcription. -/
def countLostWords (transcription : Option (List Char)) : Nat :=
  match transcription with
  | none => 0
  | some l =>
    if l = [] then 0
    else countMatchesGo lostPhrases1 false (l.map jsToLower)
         + countMatchesGo lostPhrases2 false (l.map jsToLower)

/-- `calculateSemanticAnomaly(transcription)`: `0.1 + Math.random() * 0.2`,
with the `Math.random()` draw as the explicit parameter `r`.  The transcription
is ignored by the source. -/
def calculateSemanticAnomaly (_transcription : Option (List Char)) (r : ℚ) : ℚ :=
  1/10 + r * (2/10)

/-- `normalizeFeatures(features)`: returns the features unchanged. -/
def normalizeFeatures (features : List (String × ℚ)) : List (String × ℚ) :=
  features

/-! ## Feature Aggregator / Risk Scoring (featureUtils.js) -/

/-- One iteration of the `for (const feature in features)` loop of
`calculateRiskScore`: `if (weights[feature])` is JS truthiness, i.e. the key is
present with a non-zero value. -/
def riskStep (ws : List (String × ℚ)) (a : ℚ × ℚ) (kv : String × ℚ) : ℚ × ℚ :=
  match ws.lookup kv.1 with
  | some w => if w = 0 then a else (a.1 + kv.2 * w, a.2 + w)
  | none => a

/-- `calculateRiskScore(features, weights)`. -/
def calculateRiskScore (features weights : Option (List (String × ℚ))) : ℚ :=
  match features, weights with
  | some fs, some ws =>
    let acc := fs.foldl (riskStep ws) (0, 0)
    if 0 < acc.2 then acc.1 / acc.2 else 0
  | _, _ => 0

/-- The feature keys kept by the spec's description of the risk score: present
in the weight map with a strictly positive weight. -/
def posKeys (ws fs : List (String × ℚ)) : List (String × ℚ) :=
  fs.filter (fun kv =>
    match ws.lookup kv.1 with
    | some w => decide (0 < w)
    | none => false)

/-- The risk score exactly as claim C1 words it (refinement reference):
`Σ(feature[k] * weight[k]) / Σ(weight[k])` over the keys present in both maps
with `weight[k] > 0`, and 0 when either map is null or nothing overlaps. -/
def riskScoreClaim (features weights : Option (List (String × ℚ))) : ℚ :=
  match features, weights with
  | some fs, some ws =>
    let num := ((posKeys ws fs).map (fun kv => kv.2 * ((ws.lookup kv.1).getD 0))).sum
    let den := ((posKeys ws fs).map (fun kv => (ws.lookup kv.1).getD 0)).sum
    if 0 < den then num / den else 0
  | _, _ => 0

/-! ## Signal Feature Extractor: audio quality (audioUtils part of featureUtils.js) -/

/-- The `{qualityScore, issues}` payload of `checkAudioQuality`. -/
structure AudioQualityData where
  qualityScore : ℚ
  issues : List String
deriving DecidableEq

/-- `checkAudioQuality(audioFile)`: the three issue draws are the explicit
parameters `r1 r2 r3` (one per `Math.random()` call); the score is
`Math.min(1, Math.max(0, 0.95 - issues.length * 0.2))`. -/
def checkAudioQuality (r1 r2 r3 : ℚ) : AudioQualityData :=
  let issues := (if 4/5 < r1 then ["low_snr"] else [])
                ++ (if 9/10 < r2 then ["clipping"] else [])
                ++ (if 19/20 < r3 then ["distortion"] else [])
  { qualityScore := min 1 (max 0 (19/20 - (issues.length : ℚ) * (1/5))), issues := issues }

/-! ## Pipeline data model (src/unnamed/part_001) -/

/-- An audio input; the pipeline reads only its `name`. -/
structure AudioFile where
  name : String
deriving DecidableEq

/-- The `{success: true, data}` / `{success: false, error}` result shape of
every stage function. -/
inductive JsResult (α : Type) where
  | ok (data : α)
  | err (error : String)
deriving DecidableEq

/-- The payload of a successful `preprocessAudio`. -/
structure PreprocessData where
  file : AudioFile
  duration : ℚ
  sampleRate : Nat
deriving DecidableEq

/-- The payload of a successful `transcribeAudio`. -/
structure TranscriptionData where
  file : AudioFile
  transcription : String
  confidence : ℚ
  model : String
deriving DecidableEq

/-- The payload of a successful `extractFeatures`. -/
structure FeaturesData where
  file : AudioFile
  features : List (String × ℚ)
deriving DecidableEq

/-- The payload of a successful `runAnalysisModel`. -/
structure AnalysisData where
  risk_status : String
  confidence : ℚ
  model_used : String
  key_indicators : List String
  analysis_notes : List String
deriving DecidableEq

/-- The settings object handed to the pipeline (AnalysisContext shape). -/
structure Settings where
  modelType : String
  contamination : ℚ
  featureWeights : List (String × ℚ)
  transcriptionModel : String
deriving DecidableEq

/-- One compiled per-file result record pushed by `processAudioPipeline`. -/
structure ResultRec where
  id : String
  file_name : String
  risk_status : String
  confidence : ℚ
  key_indicators : List String
  features : List (String × ℚ)
  transcription : String
  analysis_notes : List String
deriving DecidableEq

/-- One `updateProgress` payload.  The source sometimes sends partial objects
(`{progress: 100}` without `currentStep`/`stepName`), hence the `Option`s. -/
structure ProgressEvent where
  currentStep : Option Nat
  stepName : Option String
  progress : ℚ
deriving DecidableEq

/-- The behaviour of the four stage functions the orchestrator awaits.  The
source's own stage bodies are demo mocks driven by `Math.random()`; the
orchestration claims quantify over what the stages may return, so the stages
enter the model as this environment (signatures as in the source). -/
structure StageEnv where
  preprocessAudio : AudioFile → JsResult PreprocessData
  transcribeAudio : AudioFile → String → JsResult TranscriptionData
  extractFeatures : AudioFile → String → JsResult FeaturesData
  runAnalysisModel : List (String × ℚ) → Settings → JsResult AnalysisData

/-- What `processAudioPipeline` returns: the results array on success, the
message of the outer `catch` on failure. -/
inductive PipelineOutput where
  | ok (results : List ResultRec)
  | err (error : String)
deriving DecidableEq

/-- The results carried by a pipeline output (an error output carries none). -/
def producedResults : PipelineOutput → List ResultRec
  | PipelineOutput.ok rs => rs
  | PipelineOutput.err _ => []

/-- The `{progress: 100}` stage-completion event. -/
def stageDone : ProgressEvent := ⟨none, none, 100⟩

/-- The first error among the four sequential stage calls on one file, if any
(`none` means the file's whole stage chain succeeds). -/
def stageErr (env : StageEnv) (s : Settings) (f : AudioFile) : Option String :=
  match env.preprocessAudio f with
  | JsResult.err m => some m
  | JsResult.ok _ =>
    match env.transcribeAudio f s.transcriptionModel with
    | JsResult.err m => some m
    | JsResult.ok tr =>
      match env.extractFeatures f tr.transcription with
      | JsResult.err m => some m
      | JsResult.ok fe =>
        match env.runAnalysisModel fe.features s with
        | JsResult.err m => some m
        | JsResult.ok _ => none

/-- The loop body of `processAudioPipeline` for the file at index `i` of a
batch of `n` files: the four stage calls with their progress events, ending
either at the first failing stage (the `throw`) or with the compiled result
record and the step-5 event, whose progress is `(i + 1) / n * 100`. -/
def runStages (env : StageEnv) (s : Settings) (n i : Nat) (f : AudioFile) :
    List ProgressEvent × JsResult ResultRec :=
  match env.preprocessAudio f with
  | JsResult.err m => ([⟨some 1, some "Preprocessing Audio", 0⟩], JsResult.err m)
  | JsResult.ok _ =>
    match env.transcribeAudio f s.transcriptionModel with
    | JsResult.err m =>
      ([⟨some 1, some "Preprocessing Audio", 0⟩, stageDone,
        ⟨some 2, some "Transcribing Audio", 0⟩], JsResult.err m)
    | JsResult.ok tr =>
      match env.extractFeatures f tr.transcription with
      | JsResult.err m =>
        ([⟨some 1, some "Preprocessing Audio", 0⟩, stageDone,
          ⟨some 2, some "Transcribing Audio", 0⟩, stageDone,
          ⟨some 3, some "Extracting Features", 0⟩], JsResult.err m)
      | JsResult.ok fe =>
        match env.runAnalysisModel fe.features s with
        | JsResult.err m =>
          ([⟨some 1, some "Preprocessing Audio", 0⟩, stageDone,
            ⟨some 2, some "Transcribing Audio", 0⟩, stageDone,
            ⟨some 3, some "Extracting Features", 0⟩, stageDone,
            ⟨some 4, some "Running Analysis Model", 0⟩], JsResult.err m)
        | JsResult.ok an =>
          ([⟨some 1, some "Preprocessing Audio", 0⟩, stageDone,
            ⟨some 2, some "Transcribing Audio", 0⟩, stageDone,
            ⟨some 3, some "Extracting Features", 0⟩, stageDone,
            ⟨some 4, some "Running Analysis Model", 0⟩, stageDone,
            ⟨some 5, some "Compiling Results", ((i : ℚ) + 1) / (n : ℚ) * 100⟩],
           JsResult.ok
             { id := "result-" ++ toString i
               file_name := f.name
               risk_status := an.risk_status
               confidence := an.confidence
               key_indicators := an.key_indicators
               features := fe.features
               transcription := tr.transcription
               analysis_notes := an.analysis_notes })

/-- The full event sequence of one successfully processed file: stage entries
1-4 with progress 0, a `{progress: 100}` completion after each, then the single
step-5 event with the overall batch fraction. -/
def pipelineFileEvents (n i : Nat) : List ProgressEvent :=
  [⟨some 1, some "Preprocessing Audio", 0⟩, stageDone,
   ⟨some 2, some "Transcribing Audio", 0⟩, stageDone,
   ⟨some 3, some "Extracting Features", 0⟩, stageDone,
   ⟨some 4, some "Running Analysis Model", 0⟩, stageDone,
   ⟨some 5, some "Compiling Results", ((i : ℚ) + 1) / (n : ℚ) * 100⟩]

/-- The `for (let i = 0; ...)` loop of `processAudioPipeline`: `i` is the
current index, `acc` the results pushed so far (reversed).  A stage failure is
thrown, caught by the outer `catch`, and wrapped as
`Error in audio processing pipeline: <message>`; the results array is lost. -/
def pipelineGo (env : StageEnv) (s : Settings) (n : Nat) :
    Nat → List AudioFile → List ResultRec → List ProgressEvent × PipelineOutput
  | _, [], acc => ([], PipelineOutput.ok acc.reverse)
  | i, f :: rest, acc =>
    match runStages env s n i f with
    | (evs, JsResult.err m) =>
      (evs, PipelineOutput.err ("Error in audio processing pipeline: " ++ m))
    | (evs, JsResult.ok r) =>
      let out := pipelineGo env s n (i + 1) rest (r :: acc)
      (evs ++ out.1, out.2)

/-- `processAudioPipeline(audioFiles, settings, updateProgress)`: the emitted
progress events (in order) and the returned result. -/
def processAudioPipeline (env : StageEnv) (s : Settings) (files : List AudioFile) :
    List ProgressEvent × PipelineOutput :=
  pipelineGo env s files.length 0 files []

/-! ## The source's mock anomaly model (runAnalysisModel body, part_001) -/

/-- The data built by the source's `runAnalysisModel`: `r1 r2 r3` are the
`Math.random()` draws of lines 102, 108 and 111 (`isAtRisk`, `confidence`,
`key_indicators` slice).  The settings enter only through `model_used`. -/
def runAnalysisModelData (s : Settings) (r1 r2 r3 : ℚ) : AnalysisData :=
  let isAtRisk := decide (7/10 < r1)
  { risk_status := if isAtRisk then "At Risk" else "Normal"
    confidence := 7/10 + r2 * (1/4)
    model_used := s.modelType
    key_indicators :=
      if isAtRisk then
        ["Hesitation", "Semantic Anomaly", "Slow Speech Rate"].take (Int.floor (r3 * 3) + 1).toNat
      else
        ["Normal Speech Pattern"]
    analysis_notes :=
      if isAtRisk then
        ["Higher than normal hesitation frequency detected",
         "Semantic coherence is below average",
         "Speech patterns show potential cognitive indicators"]
      else
        ["Speech patterns within normal range",
         "No significant cognitive indicators detected"] }

/-- `runAnalysisModel(features, settings)` as a stage function (always
succeeds; the features argument is unused by the mock). -/
def runAnalysisModelMock (_features : List (String × ℚ)) (s : Settings) (r1 r2 r3 : ℚ) :
    JsResult AnalysisData :=
  JsResult.ok (runAnalysisModelData s r1 r2 r3)

/-- The fraction of a batch labeled `At Risk` by `runAnalysisModel`, one
`(r1, r2, r3)` draw triple per file. -/
def atRiskFraction (fvs : List (List (String × ℚ))) (s : Settings)
    (draws : List (ℚ × ℚ × ℚ)) : ℚ :=
  let statuses := (fvs.zip draws).map
    (fun p => (runAnalysisModelData s p.2.1 p.2.2.1 p.2.2.2).risk_status)
  ((statuses.filter (fun st => st == "At Risk")).length : ℚ) / (fvs.length : ℚ)

/-! ## Concrete fixtures used by witnesses and counterexamples -/

/-- A settings object with the defaults of AnalysisContext, at a given
contamination. -/
def mkSettings (c : ℚ) : Settings :=
  { modelType := "isolation_forest", contamination := c,
    featureWeights := [("hesitation_count", 1), ("pause_count", 1)],
    transcriptionModel := "wav2vec2" }

/-- A stage environment in which every stage succeeds with fixed data. -/
def envAllOk : StageEnv :=
  { preprocessAudio := fun f => JsResult.ok { file := f, duration := 30, sampleRate := 16000 }
    transcribeAudio := fun f m =>
      JsResult.ok { file := f, transcription := "hello world", confidence := 87/100, model := m }
    extractFeatures := fun f _t =>
      JsResult.ok { file := f, features := [("hesitation_count", 2), ("pause_count", 1)] }
    runAnalysisModel := fun fe s => runAnalysisModelMock fe s (1/2) (1/2) (1/2) }

/-- `envAllOk` except that preprocessing fails on the file named `bad.wav`. -/
def envOneBad : StageEnv :=
  { envAllOk with
    preprocessAudio := fun f =>
      if f.name = "bad.wav" then JsResult.err "Error preprocessing audio: corrupt"
      else JsResult.ok { file := f, duration := 30, sampleRate := 16000 } }

/-- Fixture files. -/
def fileGood : AudioFile := ⟨"good.wav"⟩

/-- Fixture files. -/
def fileBad : AudioFile := ⟨"bad.wav"⟩

/-! ## Helper lemmas -/

theorem lookup_mem (l : List (String × ℚ)) (k : String) (w : ℚ)
    (h : l.lookup k = some w) : (k, w) ∈ l := by
  induction l with
  | nil => simp [List.lookup] at h
  | cons kv tl ih =>
    rcases kv with ⟨k1, w1⟩
    by_cases hk : (k == k1 : Bool)
    · have hkk : k = k1 := by simpa using hk
      subst hkk
      simp [List.lookup] at h
      subst h
      exact List.mem_cons_self _ _
    · simp [List.lookup, hk] at h
      exact List.mem_cons_of_mem _ (ih h)

theorem riskFoldl_eq (ws : List (String × ℚ)) (hw : ∀ kv ∈ ws, 0 ≤ kv.2) :
    ∀ (fs : List (String × ℚ)) (a b : ℚ),
      fs.foldl (riskStep ws) (a, b)
        = (a + ((posKeys ws fs).map (fun kv => kv.2 * ((ws.lookup kv.1).getD 0))).sum,
           b + ((posKeys ws fs).map (fun kv => (ws.lookup kv.1).getD 0)).sum) := by
  intro fs
  induction fs with
  | nil => intro a b; simp [posKeys]
  | cons kv fs ih =>
    intro a b
    simp only [List.foldl_cons]
    rcases hl : ws.lookup kv.1 with _ | w
    · have hstep : riskStep ws (a, b) kv = (a, b) := by simp [riskStep, hl]
      rw [hstep, ih]
      simp [posKeys, List.filter_cons, hl]
    · by_cases hw0 : w = 0
      · subst hw0
        have hstep : riskStep ws (a, b) kv = (a, b) := by simp [riskStep, hl]
        rw [hstep, ih]
        simp [posKeys, List.filter_cons, hl]
      · have hpos : 0 < w :=
          lt_of_le_of_ne (hw _ (lookup_mem ws kv.1 w hl)) (Ne.symm hw0)
        have hstep : riskStep ws (a, b) kv = (a + kv.2 * w, b + w) := by
          simp [riskStep, hl, hw0]
        rw [hstep, ih]
        have hfil : posKeys ws (kv :: fs) = kv :: posKeys ws fs := by
          simp [posKeys, List.filter_cons, hl, hpos]
        rw [hfil]
        simp only [List.map_cons, List.sum_cons, hl, Option.getD_some, Prod.mk.injEq]
        constructor <;> ring

theorem posKeys_nil_weights (fs : List (String × ℚ)) : posKeys [] fs = [] := by
  induction fs with
  | nil => rfl
  | cons kv fs ih => simp [posKeys, List.filter_cons, List.lookup] at ih ⊢

/-! ## Claim theorems -/

/-- C1 (amended): when every weight in the map is nonnegative — the spec's
data-model invariant for `featureWeights` — `calculateRiskScore` computes
exactly the claimed weighted average over the keys present in both maps with
positive weight; the null/empty cases return 0, and
`calculateRiskScore({a:10,b:20}, {a:1,b:1}) = 15`.  (Without the nonnegativity
restriction the claim fails: the source's truthiness test also admits negative
weights, see the counterexample.) -/
theorem calculateRiskScore_amendedSpec (fs ws : List (String × ℚ))
    (hw : ∀ kv ∈ ws, 0 ≤ kv.2) :
    calculateRiskScore (some fs) (some ws) = riskScoreClaim (some fs) (some ws)
    ∧ calculateRiskScore none (some ws) = 0
    ∧ calculateRiskScore (some fs) none = 0
    ∧ calculateRiskScore (some fs) (some []) = 0
    ∧ calculateRiskScore (some [("a", 10), ("b", 20)]) (some [("a", 1), ("b", 1)]) = 15 := by
  refine ⟨?_, rfl, rfl, ?_, ?_⟩
  · simp only [calculateRiskScore, riskScoreClaim]
    rw [riskFoldl_eq ws hw fs 0 0]
    simp
  · simp only [calculateRiskScore]
    rw [riskFoldl_eq [] (by simp) fs 0 0]
    simp [posKeys_nil_weights]
  · simp [calculateRiskScore, riskStep, List.lookup] <;> norm_num

/-- C1 witness: the amended theorem applied to the concrete feature vector
`{a:10, b:20}` and weight map `{a:1, b:1}`. -/
theorem calculateRiskScore_amendedSpec_witness :
    calculateRiskScore (some [("a", 10), ("b", 20)]) (some [("a", 1), ("b", 1)])
      = riskScoreClaim (some [("a", 10), ("b", 20)]) (some [("a", 1), ("b", 1)])
    ∧ calculateRiskScore (some [("a", 10), ("b", 20)]) (some [("a", 1), ("b", 1)]) = 15 := by
  have h := calculateRiskScore_amendedSpec [("a", 10), ("b", 20)] [("a", 1), ("b", 1)]
    (by norm_num)
  exact ⟨h.1, h.2.2.2.2⟩

/-- C1 counterexample: with the weight map `{a:1, b:-1}` the claimed weighted
average over the positive-weight keys is 10, but the source includes every
truthy (non-zero) weight, gets a weight total of 0 and returns 0. -/
theorem calculateRiskScore_negWeight_cx :
    riskScoreClaim (some [("a", 10), ("b", 20)]) (some [("a", 1), ("b", -1)]) = 10
    ∧ calculateRiskScore (some [("a", 10), ("b", 20)]) (some [("a", 1), ("b", -1)]) = 0
    ∧ (10 : ℚ) ≠ 0 := by
  refine ⟨?_, ?_, by norm_num⟩
  · simp [riskScoreClaim, posKeys, List.lookup, List.filter_cons]
  · simp [calculateRiskScore, riskStep, List.lookup]

/-- C4: `calculateSpeechRate` is word count divided by duration-in-minutes for
a non-empty transcription and positive duration, and 0 for an empty or null
transcription or a non-positive duration. -/
theorem calculateSpeechRate_spec (t : List Char) (d : ℚ) :
    (t ≠ [] → 0 < d →
      calculateSpeechRate (some t) d = ((wordsOf t).length : ℚ) / (d / 60))
    ∧ (d ≤ 0 → calculateSpeechRate (some t) d = 0)
    ∧ calculateSpeechRate (some []) d = 0
    ∧ calculateSpeechRate none d = 0 := by
  refine ⟨?_, ?_, ?_, rfl⟩
  · intro ht hd
    simp only [calculateSpeechRate]
    rw [if_neg]
    push_neg
    exact ⟨ht, by linarith⟩
  · intro hd
    simp [calculateSpeechRate, hd]
  · simp [calculateSpeechRate]

/-- C4 witness: 2 words in 30 seconds is 4 words per minute. -/
theorem calculateSpeechRate_spec_witness :
    calculateSpeechRate (some ("hello world".toList)) 30 = 4 := by
  have h := (calculateSpeechRate_spec ("hello world".toList) 30).1 (by decide) (by norm_num)
  have h2 : (wordsOf ("hello world".toList)).length = 2 := by decide
  rw [h, h2]
  norm_num

/-- C9: the quality score of `checkAudioQuality` is
`min(1, max(0, 0.95 - 0.2 * |issues|))`, always lies in `[0, 1]`, and is
`0.95` when no issue is detected. -/
theorem checkAudioQuality_spec (r1 r2 r3 : ℚ) :
    (checkAudioQuality r1 r2 r3).qualityScore
        = min 1 (max 0 (19/20 - ((checkAudioQuality r1 r2 r3).issues.length : ℚ) * (1/5)))
    ∧ 0 ≤ (checkAudioQuality r1 r2 r3).qualityScore
    ∧ (checkAudioQuality r1 r2 r3).qualityScore ≤ 1
    ∧ ((checkAudioQuality r1 r2 r3).issues = [] →
        (checkAudioQuality r1 r2 r3).qualityScore = 19/20) := by
  refine ⟨rfl, ?_, ?_, ?_⟩
  · exact le_min (by norm_num) (le_max_left 0 _)
  · exact min_le_left 1 _
  · intro h
    simp only [checkAudioQuality] at h ⊢
    rw [h]
    norm_num

/-- C9 witness: with all three draws at 0 no issue fires and the score is
exactly the 0.95 ceiling (and nonnegative). -/
theorem checkAudioQuality_spec_witness :
    (checkAudioQuality 0 0 0).qualityScore = 19/20
    ∧ 0 ≤ (checkAudioQuality 0 0 0).qualityScore := by
  have hiss : (checkAudioQuality 0 0 0).issues = [] := by
    simp [checkAudioQuality] <;> norm_num
  exact ⟨(checkAudioQuality_spec 0 0 0).2.2.2 hiss, (checkAudioQuality_spec 0 0 0).2.1⟩

/-- C10: `normalizeFeatures` is the identity — no scaling or statistical
normalization is applied to a feature vector. -/
theorem normalizeFeatures_id (f : List (String × ℚ)) : normalizeFeatures f = f := rfl

/-- C5 (amended): the six deterministic extractors — `calculateSpeechRate`,
`countHesitations`, `countPauses`, `countVagueWords`,
`detectIncompleteSentences`, `countLostWords` — are pure functions (they are
modelled as plain functions of their input) and return 0 for a null or empty
transcription.  `calculateSemanticAnomaly` is the exception: it ignores the
transcription entirely and returns `0.1 + 0.2·r` for the `Math.random()` draw
`r`, a value in `[0.1, 0.3)` for `r ∈ [0, 1)` — in particular it is neither
zero on null/empty input nor a function of the transcription alone. -/
theorem linguisticExtractors_amendedSpec :
    (∀ d : ℚ, calculateSpeechRate none d = 0 ∧ calculateSpeechRate (some []) d = 0)
    ∧ (countHesitations none = 0 ∧ countHesitations (some []) = 0)
    ∧ (countPauses none = 0 ∧ countPauses (some []) = 0)
    ∧ (countVagueWords none = 0 ∧ countVagueWords (some []) = 0)
    ∧ (detectIncompleteSentences none = 0 ∧ detectIncompleteSentences (some []) = 0)
    ∧ (countLostWords none = 0 ∧ countLostWords (some []) = 0)
    ∧ (∀ (t : Option (List Char)) (r : ℚ),
        calculateSemanticAnomaly t r = 1/10 + r * (2/10)
        ∧ calculateSemanticAnomaly t r = calculateSemanticAnomaly none r)
    ∧ (∀ (t : Option (List Char)) (r : ℚ), 0 ≤ r → r < 1 →
        1/10 ≤ calculateSemanticAnomaly t r ∧ calculateSemanticAnomaly t r < 3/10) := by
  refine ⟨fun d => ⟨rfl, by simp [calculateSpeechRate]⟩,
    ⟨rfl, by simp [countHesitations]⟩, ⟨rfl, by simp [countPauses]⟩,
    ⟨rfl, by simp [countVagueWords]⟩, ⟨rfl, by simp [detectIncompleteSentences]⟩,
    ⟨rfl, by simp [countLostWords]⟩, fun t r => ⟨rfl, rfl⟩, fun t r h0 h1 => ⟨?_, ?_⟩⟩
  · have hm : 0 ≤ r * (2/10) := mul_nonneg h0 (by norm_num)
    simp only [calculateSemanticAnomaly]
    linarith
  · have hm : r * (2/10) < 1 * (2/10) :=
      mul_lt_mul_of_pos_right h1 (by norm_num)
    simp only [calculateSemanticAnomaly]
    linarith

/-- C5 witness: the amended theorem instantiated at the null transcription and
the draw 1/2, where the semantic-anomaly placeholder returns a value in
`[0.1, 0.3)`, and at `countHesitations` on null input. -/
theorem linguisticExtractors_amendedSpec_witness :
    (1/10 ≤ calculateSemanticAnomaly none (1/2) ∧ calculateSemanticAnomaly none (1/2) < 3/10)
    ∧ countHesitations none = 0 := by
  obtain ⟨-, h2, -, -, -, -, -, h8⟩ := linguisticExtractors_amendedSpec
  exact ⟨h8 none (1/2) (by norm_num) (by norm_num), h2.1⟩

/-- C5 counterexample: `calculateSemanticAnomaly` on the null transcription is
0.1 + 0.2·r, not 0, and two different draws give two different outputs for the
same (null) transcription — it is not a pure zero-on-empty extractor. -/
theorem calculateSemanticAnomaly_nonzero_cx :
    calculateSemanticAnomaly none 0 ≠ 0
    ∧ calculateSemanticAnomaly none 0 ≠ calculateSemanticAnomaly none (1/2) := by
  constructor <;> norm_num [calculateSemanticAnomaly]

/-- C6 (amended): the mock `runAnalysisModel` ignores the contamination
setting altogether — for the same batch and the same per-file random draws the
`At Risk` fraction is identical (hence trivially non-decreasing) across any
`c1 ≤ c2`.  Monotonicity across runs with different draws fails, see the
counterexample. -/
theorem atRiskFraction_contamination_indep (fvs : List (List (String × ℚ)))
    (draws : List (ℚ × ℚ × ℚ)) (mt tm : String) (fw : List (String × ℚ)) (c1 c2 : ℚ)
    (h : c1 ≤ c2) :
    atRiskFraction fvs ⟨mt, c1, fw, tm⟩ draws ≤ atRiskFraction fvs ⟨mt, c2, fw, tm⟩ draws :=
  le_of_eq rfl

/-- C6 witness: the amended theorem at a concrete one-file batch, draw 4/5 and
contaminations 1/10 ≤ 1/2. -/
theorem atRiskFraction_contamination_indep_witness :
    atRiskFraction [[("hesitation_count", 1)]] (mkSettings (1/10)) [(4/5, 0, 0)]
      ≤ atRiskFraction [[("hesitation_count", 1)]] (mkSettings (1/2)) [(4/5, 0, 0)] := by
  have h := atRiskFraction_contamination_indep [[("hesitation_count", 1)]] [(4/5, 0, 0)]
    "isolation_forest" "wav2vec2" [("hesitation_count", 1), ("pause_count", 1)]
    (1/10) (1/2) (by norm_num)
  exact h

/-- C6 counterexample: two runs on the same one-file batch, contaminations
1/10 ≤ 1/2, but with the draws real runs would produce (independent
`Math.random()` calls): the low-contamination run draws 4/5 and flags the file
(fraction 1), the high-contamination run draws 1/10 and flags nothing
(fraction 0), so the claimed monotonicity 1 ≤ 0 fails. -/
theorem atRiskFraction_monotone_cx :
    (1:ℚ)/10 ≤ 1/2
    ∧ atRiskFraction [[("hesitation_count", 1)]] (mkSettings (1/10)) [(4/5, 0, 0)] = 1
    ∧ atRiskFraction [[("hesitation_count", 1)]] (mkSettings (1/2)) [(1/10, 0, 0)] = 0
    ∧ ¬ ((1:ℚ) ≤ 0) := by
  have h1 : (7:ℚ)/10 < 4/5 := by norm_num
  have h2 : ¬ ((7:ℚ)/10 < 1/10) := by norm_num
  refine ⟨by norm_num, ?_, ?_, by norm_num⟩
  · simp [atRiskFraction, runAnalysisModelData, mkSettings, h1]
  · simp [atRiskFraction, runAnalysisModelData, mkSettings, h2]
    norm_num

theorem toNat_ofNat_shift (n : Nat) (h1 : 65 ≤ n) (h2 : n ≤ 90) :
    (Char.ofNat (n + 32)).toNat = n + 32 := by
  interval_cases n <;> rfl

theorem jsWs_jsToLower (c : Char) : jsWs (jsToLower c) = jsWs c := by
  by_cases h : 65 ≤ c.toNat ∧ c.toNat ≤ 90
  · simp only [jsToLower, if_pos h, jsWs, toNat_ofNat_shift c.toNat h.1 h.2]
    simp only [List.mem_cons, List.not_mem_nil, or_false, decide_eq_decide]
    omega
  · simp only [jsToLower, if_neg h]

theorem jsToLower_idem (c : Char) : jsToLower (jsToLower c) = jsToLower c := by
  by_cases h : 65 ≤ c.toNat ∧ c.toNat ≤ 90
  · have ht := toNat_ofNat_shift c.toNat h.1 h.2
    have hc : jsToLower c = Char.ofNat (c.toNat + 32) := by
      simp only [jsToLower, if_pos h]
    rw [hc]
    have hnot : ¬ (65 ≤ (Char.ofNat (c.toNat + 32)).toNat
        ∧ (Char.ofNat (c.toNat + 32)).toNat ≤ 90) := by
      rw [ht]
      omega
    simp only [jsToLower, if_neg hnot]
  · have hc : jsToLower c = c := by simp only [jsToLower, if_neg h]
    rw [hc, hc]

theorem jsSplitRunsGo_map (p : Char → Bool) (f : Char → Char)
    (hpf : ∀ c, p (f c) = p c) :
    ∀ (l : List Char) (inRun : Bool) (cur : List Char),
      jsSplitRunsGo p inRun (cur.map f) (l.map f)
        = (jsSplitRunsGo p inRun cur l).map (List.map f) := by
  intro l
  induction l with
  | nil =>
    intro inRun cur
    simp [jsSplitRunsGo, List.map_reverse]
  | cons c l ih =>
    intro inRun cur
    simp only [List.map_cons, jsSplitRunsGo, hpf c]
    by_cases hp : p c
    · cases inRun
      · simp only [hp, if_true, Bool.false_eq_true, if_false, List.map_cons,
          List.map_reverse]
        exact congrArg ((List.map f cur).reverse :: ·) (ih true [])
      · simp only [hp, if_true]
        exact ih true cur
    · simp only [hp, Bool.false_eq_true, if_false]
      rw [show (f c :: cur.map f) = (c :: cur).map f from rfl, ih]

theorem jsSplitWs_map_jsToLower (l : List Char) :
    jsSplitWs (l.map jsToLower) = (jsSplitWs l).map (List.map jsToLower) := by
  have h := jsSplitRunsGo_map jsWs jsToLower jsWs_jsToLower l false []
  simpa [jsSplitWs, jsSplitRuns] using h

theorem length_filter_map_eq (g : List Char → List Char) (q : List Char → Bool)
    (L : List (List Char)) :
    ((L.map g).filter q).length = (L.filter (fun w => q (g w))).length := by
  induction L with
  | nil => rfl
  | cons w L ih =>
    simp only [List.map_cons, List.filter_cons]
    by_cases hq : q (g w)
    · simp [hq, ih]
    · simp [hq, ih]

theorem length_filter_filter_of_imp (q pn : List Char → Bool) (L : List (List Char))
    (h : ∀ w, q w = true → pn w = true) :
    ((L.filter pn).filter q).length = (L.filter q).length := by
  rw [List.filter_filter]
  have hpt : ∀ w ∈ L, (q w && pn w) = q w := by
    intro w _
    cases hq : q w
    · simp
    · simp [h w hq]
  rw [List.filter_congr hpt]

theorem foldl_count_eq (p : List Char → Bool) :
    ∀ (L : List (List Char)) (acc : Nat),
      L.foldl (fun a s => if p s then a + 1 else a) acc = acc + L.countP p := by
  intro L
  induction L with
  | nil => intro acc; simp
  | cons s L ih =>
    intro acc
    simp only [List.foldl_cons, List.countP_cons]
    by_cases hp : p s
    · simp only [hp, if_true, ih]
      omega
    · simp only [hp, Bool.false_eq_true, if_false, ih]
      omega

/-- C7 (amended): `detectIncompleteSentences` counts the sentence segments
(split on `[.!?]+`, empty/whitespace-only segments discarded) that either have
fewer than 3 whitespace-split pieces — where JS split semantics add an empty
piece for leading or trailing whitespace — or end with a dangling conjunction
(case-insensitive, trailing whitespace trimmed); in particular
`"I went to the store and"` counts ≥ 1 and `"I went to the store."` counts 0.
(The original claim counted fewer-than-3 non-empty tokens, which fails on a
sentence with boundary whitespace, see the counterexample.) -/
theorem detectIncompleteSentences_amendedSpec (t : List Char) :
    detectIncompleteSentences (some t) = (sentenceSegments t).countP isIncompleteSentence
    ∧ 1 ≤ detectIncompleteSentences (some ("I went to the store and".toList))
    ∧ detectIncompleteSentences (some ("I went to the store.".toList)) = 0 := by
  refine ⟨?_, by decide, by decide⟩
  by_cases ht : t = []
  · subst ht
    decide
  · simp only [detectIncompleteSentences, if_neg ht]
    rw [foldl_count_eq]
    simp

/-- C7 counterexample: the transcription `"Hi yo "` is one sentence of two
non-empty tokens, so the claim counts it incomplete (fewer than 3 tokens); but
its trailing space makes `split(/\s+/)` return three pieces
(`["Hi", "yo", ""]`), so the source counts 0. -/
theorem detectIncompleteSentences_split_cx :
    detectIncompleteSentences (some ("Hi yo ".toList)) = 0
    ∧ incompleteSentencesClaim (some ("Hi yo ".toList)) = 1 := by
  decide

/-- C8: `countHesitations` is case-insensitive — it agrees on a transcription
and its lowercased form — and equals the number of whitespace-delimited
(non-empty) tokens whose lowercasing is in the hesitation lexicon; in
particular `"UM"` and `"um"` count equally. -/
theorem countHesitations_caseInsensitive (l : List Char) :
    countHesitations (some l) = countHesitations (some (l.map jsToLower))
    ∧ countHesitations (some l)
        = ((wordsOf l).filter (fun w => hesitationWords.contains (w.map jsToLower))).length
    ∧ countHesitations (some ("UM".toList)) = countHesitations (some ("um".toList)) := by
  refine ⟨?_, ?_, by decide⟩
  · by_cases hl : l = []
    · subst hl
      rfl
    · have hmapne : l.map jsToLower ≠ [] := by simpa using hl
      simp only [countHesitations, if_neg hl, if_neg hmapne]
      have hmm : (l.map jsToLower).map jsToLower = l.map jsToLower := by
        rw [List.map_map]
        exact List.map_congr_left fun a _ => jsToLower_idem a
      rw [hmm]
  · by_cases hl : l = []
    · subst hl
      decide
    · simp only [countHesitations, if_neg hl, wordsOf]
      rw [jsSplitWs_map_jsToLower]
      rw [length_filter_map_eq]
      rw [length_filter_filter_of_imp]
      intro w hw
      cases w with
      | nil => exact absurd hw (by decide)
      | cons c cs => rfl

theorem runStages_err_of_stageErr (env : StageEnv) (s : Settings) (n i : Nat)
    (f : AudioFile) (m : String) (h : stageErr env s f = some m) :
    (runStages env s n i f).2 = JsResult.err m := by
  cases hp : env.preprocessAudio f with
  | err mm =>
    simp [stageErr, hp] at h
    simp [runStages, hp, h]
  | ok pre =>
    cases ht : env.transcribeAudio f s.transcriptionModel with
    | err mm =>
      simp [stageErr, hp, ht] at h
      simp [runStages, hp, ht, h]
    | ok tr =>
      cases hx : env.extractFeatures f tr.transcription with
      | err mm =>
        simp [stageErr, hp, ht, hx] at h
        simp [runStages, hp, ht, hx, h]
      | ok fe =>
        cases ha : env.runAnalysisModel fe.features s with
        | err mm =>
          simp [stageErr, hp, ht, hx, ha] at h
          simp [runStages, hp, ht, hx, ha, h]
        | ok an =>
          simp [stageErr, hp, ht, hx, ha] at h

theorem runStages_ok_of_stageErr (env : StageEnv) (s : Settings) (n i : Nat)
    (f : AudioFile) (h : stageErr env s f = none) :
    (runStages env s n i f).1 = pipelineFileEvents n i
    ∧ ∃ r, (runStages env s n i f).2 = JsResult.ok r := by
  cases hp : env.preprocessAudio f with
  | err mm => simp [stageErr, hp] at h
  | ok pre =>
    cases ht : env.transcribeAudio f s.transcriptionModel with
    | err mm => simp [stageErr, hp, ht] at h
    | ok tr =>
      cases hx : env.extractFeatures f tr.transcription with
      | err mm => simp [stageErr, hp, ht, hx] at h
      | ok fe =>
        cases ha : env.runAnalysisModel fe.features s with
        | err mm => simp [stageErr, hp, ht, hx, ha] at h
        | ok an =>
          simp only [runStages, hp, ht, hx, ha]
          exact ⟨rfl, ⟨_, rfl⟩⟩

theorem pipelineGo_err (env : StageEnv) (s : Settings) (n : Nat) (f : AudioFile)
    (post : List AudioFile) (m : String) (hf : stageErr env s f = some m) :
    ∀ (pre : List AudioFile) (i : Nat) (acc : List ResultRec),
      (∀ x ∈ pre, stageErr env s x = none) →
      (pipelineGo env s n i (pre ++ f :: post) acc).2
        = PipelineOutput.err ("Error in audio processing pipeline: " ++ m) := by
  intro pre
  induction pre with
  | nil =>
    intro i acc hpre
    have h2 := runStages_err_of_stageErr env s n i f m hf
    rcases hE : runStages env s n i f with ⟨evs, r⟩
    rw [hE] at h2
    simp at h2
    subst h2
    simp [pipelineGo, hE]
  | cons p pre ih =>
    intro i acc hpre
    have hok := runStages_ok_of_stageErr env s n i p (hpre p (List.mem_cons_self p pre))
    rcases hE : runStages env s n i p with ⟨evs, r⟩
    rw [hE] at hok
    obtain ⟨-, rr, hr⟩ := hok
    simp at hr
    subst hr
    simp only [List.cons_append, pipelineGo, hE]
    exact ih (i + 1) (rr :: acc) (fun x hx => hpre x (List.mem_cons_of_mem p hx))

theorem pipelineGo_ok_events (env : StageEnv) (s : Settings) (n : Nat) :
    ∀ (l : List AudioFile) (i : Nat) (acc : List ResultRec),
      (∀ x ∈ l, stageErr env s x = none) →
      (pipelineGo env s n i l acc).1
        = ((List.enumFrom i l).map (fun p => (runStages env s n p.1 p.2).1)).flatten
      ∧ ∃ rs, (pipelineGo env s n i l acc).2 = PipelineOutput.ok rs := by
  intro l
  induction l with
  | nil =>
    intro i acc h
    exact ⟨by simp [pipelineGo], ⟨acc.reverse, rfl⟩⟩
  | cons p l ih =>
    intro i acc h
    have hok := runStages_ok_of_stageErr env s n i p (h p (List.mem_cons_self p l))
    rcases hE : runStages env s n i p with ⟨evs, r⟩
    rw [hE] at hok
    obtain ⟨-, rr, hr⟩ := hok
    simp at hr
    subst hr
    obtain ⟨ihev, rs, ihok⟩ := ih (i + 1) (rr :: acc) (fun x hx => h x (List.mem_cons_of_mem p hx))
    constructor
    · simp only [pipelineGo, hE, List.enumFrom_cons, List.map_cons, List.flatten]
      rw [ihev]
    · simp only [pipelineGo, hE]
      exact ⟨rs, ihok⟩

/-- C2: fail-fast.  If every file before `f` passes all four stages and some
stage fails on `f` with message `m`, then `processAudioPipeline` returns the
failure result wrapping that originating stage's message, and produces no
AnalysisResult at all — in particular none for `f` or for any file after it
(the `post` files are never reached). -/
theorem processAudioPipeline_failFast (env : StageEnv) (s : Settings)
    (pre post : List AudioFile) (f : AudioFile) (m : String)
    (hpre : ∀ x ∈ pre, stageErr env s x = none)
    (hf : stageErr env s f = some m) :
    (processAudioPipeline env s (pre ++ f :: post)).2
      = PipelineOutput.err ("Error in audio processing pipeline: " ++ m)
    ∧ producedResults ((processAudioPipeline env s (pre ++ f :: post)).2) = [] := by
  have h := pipelineGo_err env s (pre ++ f :: post).length f post m hf pre 0 [] hpre
  refine ⟨h, ?_⟩
  rw [show (processAudioPipeline env s (pre ++ f :: post)).2
      = PipelineOutput.err ("Error in audio processing pipeline: " ++ m) from h]
  rfl

/-- C2 witness: a three-file batch whose second file fails preprocessing; the
pipeline surfaces the preprocessing error of that file. -/
theorem processAudioPipeline_failFast_witness :
    (processAudioPipeline envOneBad (mkSettings (1/5)) [fileGood, fileBad, fileGood]).2
      = PipelineOutput.err ("Error in audio processing pipeline: "
          ++ "Error preprocessing audio: corrupt") := by
  have hpre : ∀ x ∈ [fileGood], stageErr envOneBad (mkSettings (1/5)) x = none := by
    intro x hx
    simp at hx
    subst hx
    decide
  have hf : stageErr envOneBad (mkSettings (1/5)) fileBad
      = some "Error preprocessing audio: corrupt" := by decide
  exact (processAudioPipeline_failFast envOneBad (mkSettings (1/5))
    [fileGood] [fileGood] fileBad "Error preprocessing audio: corrupt" hpre hf).1

/-- C3 (amended): for a batch in which every file passes all stages, the
pipeline's event stream is the concatenation of the per-file sequences, and
each file's sequence is exactly `pipelineFileEvents n i`: stages 1-4 in
increasing order, each entered with progress 0 and completed with a
`{progress: 100}` event (without a step number), then a single stage-5 event
whose progress is the batch fraction `(i+1)/n·100` — so progress reaches 100
at stage 5 only for the last file, not for every file as the original claim
stated (see the counterexample). -/
theorem pipelineProgress_amendedSpec (env : StageEnv) (s : Settings)
    (files : List AudioFile)
    (h : ∀ x ∈ files, stageErr env s x = none) :
    ((processAudioPipeline env s files).1
        = ((List.enumFrom 0 files).map
            (fun p => (runStages env s files.length p.1 p.2).1)).flatten
      ∧ ∃ rs, (processAudioPipeline env s files).2 = PipelineOutput.ok rs)
    ∧ ∀ (n i : Nat) (f : AudioFile), stageErr env s f = none →
        (runStages env s n i f).1 = pipelineFileEvents n i := by
  constructor
  · exact pipelineGo_ok_events env s files.length files 0 [] h
  · intro n i f hf
    exact (runStages_ok_of_stageErr env s n i f hf).1

/-- C3 witness: the amended theorem applied to a concrete one-file all-success
batch, which therefore returns an ok result list. -/
theorem pipelineProgress_amendedSpec_witness :
    ∃ rs, (processAudioPipeline envAllOk (mkSettings (1/5)) [fileGood]).2
      = PipelineOutput.ok rs := by
  have hyp : ∀ x ∈ [fileGood], stageErr envAllOk (mkSettings (1/5)) x = none := by
    intro x hx
    simp at hx
    subst hx
    decide
  exact (pipelineProgress_amendedSpec envAllOk (mkSettings (1/5)) [fileGood] hyp).1.2

/-- C3 counterexample: in a successful two-file batch, the first file's event
sequence contains no event with `currentStep = 5` and `progress = 100` — its
stage-5 event carries progress 50 — even though the batch compiles both
results; this falsifies "every file's event sequence reaches currentStep=5
with progress=100". -/
theorem pipelineProgress_step5_cx :
    ((runStages envAllOk (mkSettings (1/5)) 2 0 fileGood).1.countP
        (fun e => decide (e.currentStep = some 5 ∧ e.progress = 100))) = 0
    ∧ (runStages envAllOk (mkSettings (1/5)) 2 0 fileGood).1.getLast?
        = some ⟨some 5, some "Compiling Results", 50⟩
    ∧ (producedResults (processAudioPipeline envAllOk (mkSettings (1/5))
        [fileGood, ⟨"b.wav"⟩]).2).length = 2 := by
  have hev : (runStages envAllOk (mkSettings (1/5)) 2 0 fileGood).1
      = pipelineFileEvents 2 0 :=
    (runStages_ok_of_stageErr envAllOk (mkSettings (1/5)) 2 0 fileGood (by decide)).1
  refine ⟨?_, ?_, ?_⟩
  · rw [hev]
    simp [pipelineFileEvents, stageDone, List.countP_cons]
  · rw [hev]
    simp [pipelineFileEvents, stageDone]
    norm_num
  · simp [processAudioPipeline, pipelineGo, runStages, envAllOk, mkSettings,
      runAnalysisModelMock, producedResults]
